import Mathlib

/-!
Verification of the FIFO cost-basis ledger and the transaction classifier of
the solpnl repository.

The ledger is `PnLCalculator` in `src/backend/services/pnl.py`
(`calculate_realized_pnl`, `process_transactions`); the classifier is
`HeliusService.parse_transaction` in `src/backend/services/helius.py`.

Embedding conventions:
* Python floats are modelled as exact rationals (`ℚ`);
* `datetime` values are modelled as integers (unix seconds), an absent
  (`None`) timestamp as `Option.none`;
* Python dicts keyed by strings are modelled as insertion-ordered
  association lists (`List (String × α)`), matching dict iteration order;
* the dynamically-typed values reaching `parse_transaction` in the
  exception analysis are modelled by the inductive `PyVal`, and Python
  exceptions by `Except PyExc`.
-/

namespace SolPnl

/-! ## Data model of the ledger (`pnl.py`) -/

/-- Model of `CostBasisLot` (pnl.py lines 11-17): a single purchase lot for FIFO
tracking. -/
structure CostBasisLot where
  amount : ℚ
  price_sol : ℚ
  price_usd : ℚ
  timestamp : Option ℤ
  deriving Repr, DecidableEq

/-- The per-token running holding dict built by `process_transactions`.  Its
keys are initialised at pnl.py lines 163-175; `avg_buy_price_sol` is added by
the final pass (lines 216-223) and is modelled here as a field initialised
to 0. -/
structure Holding where
  current_balance : ℚ
  total_cost_sol : ℚ
  total_bought : ℚ
  total_sold : ℚ
  total_buy_sol : ℚ
  total_sell_sol : ℚ
  realized_pnl_sol : ℚ
  realized_pnl_usd : ℚ
  first_trade : Option ℤ
  last_trade : Option ℤ
  trade_count : ℕ
  avg_buy_price_sol : ℚ
  deriving Repr, DecidableEq

/-- The exact list of keys `process_transactions` ever writes into a
per-token holding dict (pnl.py lines 163-175 initialise the first eleven;
lines 221-223 add `avg_buy_price_sol`).  No other key is ever attached to a
result. -/
def holdingKeys : List String :=
  ["current_balance", "total_cost_sol", "total_bought", "total_sold",
   "total_buy_sol", "total_sell_sol", "realized_pnl_sol", "realized_pnl_usd",
   "first_trade", "last_trade", "trade_count", "avg_buy_price_sol"]

/-- The fields of a parsed-transaction dict that `process_transactions`
reads (pnl.py lines 151-158). -/
structure PnlTx where
  token_mint : String
  tx_type : String
  amount_token : ℚ
  price_per_token : ℚ
  block_time : Option ℤ
  signature : String
  deriving Repr, DecidableEq

/-- Lookup in a string-keyed insertion-ordered association list (Python dict
read). -/
def lookupA {α : Type} (k : String) : List (String × α) → Option α
  | [] => none
  | kv :: rest => if kv.1 = k then some kv.2 else lookupA k rest

/-- Python dict assignment `d[k] = v`: replace in place if the key is
present, append otherwise (insertion order preserved). -/
def updateA {α : Type} (k : String) (v : α) : List (String × α) → List (String × α)
  | [] => [(k, v)]
  | kv :: rest => if kv.1 = k then (k, v) :: rest else kv :: updateA k v rest

/-- Sum of the token amounts of a lot list. -/
def sumAmounts (lots : List CostBasisLot) : ℚ :=
  (lots.map (fun l => l.amount)).sum

/-- Value of `sum(lot.amount * lot.price_sol for lot in lots)` (pnl.py lines 212-214
and 220). -/
def lotsCost (lots : List CostBasisLot) : ℚ :=
  (lots.map (fun l => l.amount * l.price_sol)).sum

/-- The FIFO lot-consumption loop of `calculate_realized_pnl` (pnl.py lines
100-123).  Returns `(total_cost_sol, remaining_lots)`: an exhausted
`remaining_to_sell` keeps the lot, a lot no larger than the remainder is
consumed whole, a larger lot is split in place. -/
def consumeLots (remaining_to_sell : ℚ) : List CostBasisLot → ℚ × List CostBasisLot
  | [] => (0, [])
  | lot :: rest =>
    if remaining_to_sell ≤ 0 then
      let t := consumeLots remaining_to_sell rest
      (t.1, lot :: t.2)
    else if lot.amount ≤ remaining_to_sell then
      let t := consumeLots (remaining_to_sell - lot.amount) rest
      (lot.amount * lot.price_sol + t.1, t.2)
    else
      let t := consumeLots 0 rest
      (remaining_to_sell * lot.price_sol + t.1,
        { lot with amount := lot.amount - remaining_to_sell } :: t.2)

/-- Model of `PnLCalculator.calculate_realized_pnl` (pnl.py lines 81-130): returns
`(realized_pnl_sol, realized_pnl_usd, remaining_lots)`. -/
def calculate_realized_pnl (sell_amount sell_price_sol : ℚ)
    (cost_basis_lots : List CostBasisLot) (sol_price_usd : ℚ) :
    ℚ × ℚ × List CostBasisLot :=
  let c := consumeLots sell_amount cost_basis_lots
  let sell_value_sol := sell_amount * sell_price_sol
  let realized_pnl_sol := sell_value_sol - c.1
  (realized_pnl_sol, realized_pnl_sol * sol_price_usd, c.2)

/-- The mutable state of the `process_transactions` loop: `token_lots` and
`token_holdings` (pnl.py lines 147-149). -/
structure LedgerState where
  token_lots : List (String × List CostBasisLot)
  token_holdings : List (String × Holding)
  deriving Repr, DecidableEq

/-- Both dicts start empty. -/
def initState : LedgerState := ⟨[], []⟩

/-- The holding dict created for a token's first transaction (pnl.py lines
163-175). -/
def initHolding (block_time : Option ℤ) : Holding :=
  { current_balance := 0, total_cost_sol := 0, total_bought := 0,
    total_sold := 0, total_buy_sol := 0, total_sell_sol := 0,
    realized_pnl_sol := 0, realized_pnl_usd := 0,
    first_trade := block_time, last_trade := block_time, trade_count := 0,
    avg_buy_price_sol := 0 }

/-- One iteration of the transaction loop of `process_transactions`
(pnl.py lines 151-214): initialise the per-token entries if absent, bump
`last_trade`/`trade_count`, then branch on `tx_type`; only `"buy"` and
`"sell"` change lots and balances. -/
def step (sol_prices : String → Option ℚ) (s : LedgerState) (tx : PnlTx) :
    LedgerState :=
  let sol_price_usd := (sol_prices tx.signature).getD 200
  let lots := (lookupA tx.token_mint s.token_lots).getD []
  let h0 := (lookupA tx.token_mint s.token_holdings).getD (initHolding tx.block_time)
  let h1 := { h0 with last_trade := tx.block_time, trade_count := h0.trade_count + 1 }
  if tx.tx_type = "buy" then
    let lot : CostBasisLot :=
      { amount := tx.amount_token, price_sol := tx.price_per_token,
        price_usd := tx.price_per_token * sol_price_usd, timestamp := tx.block_time }
    { token_lots := updateA tx.token_mint (lots ++ [lot]) s.token_lots,
      token_holdings := updateA tx.token_mint
        { h1 with
            current_balance := h1.current_balance + tx.amount_token,
            total_cost_sol := h1.total_cost_sol + tx.amount_token * tx.price_per_token,
            total_bought := h1.total_bought + tx.amount_token,
            total_buy_sol := h1.total_buy_sol + tx.amount_token * tx.price_per_token }
        s.token_holdings }
  else if tx.tx_type = "sell" then
    let r := calculate_realized_pnl tx.amount_token tx.price_per_token lots sol_price_usd
    { token_lots := updateA tx.token_mint r.2.2 s.token_lots,
      token_holdings := updateA tx.token_mint
        { h1 with
            current_balance := h1.current_balance - tx.amount_token,
            realized_pnl_sol := h1.realized_pnl_sol + r.1,
            realized_pnl_usd := h1.realized_pnl_usd + r.2.1,
            total_sold := h1.total_sold + tx.amount_token,
            total_sell_sol := h1.total_sell_sol + tx.amount_token * tx.price_per_token,
            total_cost_sol := lotsCost r.2.2 }
        s.token_holdings }
  else
    { token_lots := updateA tx.token_mint lots s.token_lots,
      token_holdings := updateA tx.token_mint h1 s.token_holdings }

/-- The fold of `step` over an (already sorted) transaction list. -/
def run (sol_prices : String → Option ℚ) (txs : List PnlTx) (s : LedgerState) :
    LedgerState :=
  txs.foldl (step sol_prices) s

/-- Sort key comparison for pnl.py line 151: `x.get("block_time") or
datetime.min` orders an absent timestamp before every real one. -/
def leKey : Option ℤ → Option ℤ → Bool
  | none, _ => true
  | some _, none => false
  | some a, some b => decide (a ≤ b)

/-- Stable insertion used by `sortTxs`: an element is placed before the
first existing element with a key not smaller than its own. -/
def insertByTime (tx : PnlTx) : List PnlTx → List PnlTx
  | [] => [tx]
  | y :: ys => if leKey tx.block_time y.block_time then tx :: y :: ys
               else y :: insertByTime tx ys

/-- Model of `sorted(transactions, key=lambda x: x.get("block_time") or datetime.min)`
(pnl.py line 151): a stable ascending sort. -/
def sortTxs (txs : List PnlTx) : List PnlTx := txs.foldr insertByTime []

/-- The final average-buy-price pass of `process_transactions` (pnl.py lines
216-223).  Every key of `token_lots` also occurs in `token_holdings` (both
are initialised together), so the unreachable missing-holding case leaves
the state unchanged. -/
def finalize (s : LedgerState) : LedgerState :=
  { s with
    token_holdings := s.token_lots.foldl (fun hs kv =>
      match lookupA kv.1 hs with
      | some h => updateA kv.1
          { h with avg_buy_price_sol :=
              if 0 < h.current_balance ∧ kv.2 ≠ [] then lotsCost kv.2 / h.current_balance
              else 0 } hs
      | none => hs) s.token_holdings }

/-- Model of `PnLCalculator.process_transactions` (pnl.py lines 132-225). -/
def process_transactions (sol_prices : String → Option ℚ)
    (transactions : List PnlTx) : LedgerState :=
  finalize (run sol_prices (sortTxs transactions) initState)

/-! Projections of a ledger state at one token mint; a mint with no entry
projects to the initial values (empty queue, zero balances). -/

/-- The FIFO lot queue of a mint. -/
def lotsOf (s : LedgerState) (mint : String) : List CostBasisLot :=
  (lookupA mint s.token_lots).getD []

/-- The holding record of a mint. -/
def holdingOf (s : LedgerState) (mint : String) : Holding :=
  (lookupA mint s.token_holdings).getD (initHolding none)

def balOf (s : LedgerState) (mint : String) : ℚ := (holdingOf s mint).current_balance

def costOf (s : LedgerState) (mint : String) : ℚ := (holdingOf s mint).total_cost_sol

def boughtOf (s : LedgerState) (mint : String) : ℚ := (holdingOf s mint).total_bought

def soldOf (s : LedgerState) (mint : String) : ℚ := (holdingOf s mint).total_sold

def buySolOf (s : LedgerState) (mint : String) : ℚ := (holdingOf s mint).total_buy_sol

def sellSolOf (s : LedgerState) (mint : String) : ℚ := (holdingOf s mint).total_sell_sol

def realizedOf (s : LedgerState) (mint : String) : ℚ := (holdingOf s mint).realized_pnl_sol

def realizedUsdOf (s : LedgerState) (mint : String) : ℚ := (holdingOf s mint).realized_pnl_usd

def tradeCountOf (s : LedgerState) (mint : String) : ℕ := (holdingOf s mint).trade_count

def firstOf (s : LedgerState) (mint : String) : Option ℤ := (holdingOf s mint).first_trade

def lastOf (s : LedgerState) (mint : String) : Option ℤ := (holdingOf s mint).last_trade

/-- Whether a holding entry for the mint already exists. -/
def hasHolding (s : LedgerState) (mint : String) : Bool :=
  (lookupA mint s.token_holdings).isSome

/-! ## Transaction classifier (`helius.py`, `HeliusService.parse_transaction`) -/

/-- Constant `WSOL_MINT` (helius.py line 12). -/
def WSOL_MINT : String := "So11111111111111111111111111111111111111112"

/-- Structural model of Python `str.upper()` over ASCII strings. -/
def strUpper (s : String) : String := String.mk (s.data.map Char.toUpper)

/-- Structural model of Python `str.lower()` over ASCII strings. -/
def strLower (s : String) : String := String.mk (s.data.map Char.toLower)

/-- Whether `pat` occurs as a contiguous run at the head of `l`. -/
def headMatch : List Char → List Char → Bool
  | [], _ => true
  | _ :: _, [] => false
  | a :: as, b :: bs => a == b && headMatch as bs

/-- Whether `pat` occurs as a contiguous run anywhere in `l`. -/
def hasSubL (pat : List Char) : List Char → Bool
  | [] => pat == []
  | c :: rest => headMatch pat (c :: rest) || hasSubL pat rest

/-- Python substring containment `pat in s`. -/
def hasSub (s pat : String) : Bool := hasSubL pat.data s.data

/-- One entry of `tx["tokenTransfers"]` as read by `parse_transaction`
(helius.py lines 183-187): `mint`, `fromUserAccount`, `toUserAccount`,
`tokenAmount`. -/
structure TokenTransfer where
  mint : String
  fromUser : String
  toUser : String
  tokenAmount : ℚ
  deriving Repr, DecidableEq

/-- One entry of `tx["nativeTransfers"]` (helius.py lines 213-216): the raw
amount is in lamports and is divided by `1e9` wherever it is read. -/
structure NativeTransfer where
  fromUser : String
  toUser : String
  amountLamports : ℚ
  deriving Repr, DecidableEq

/-- A well-typed Helius enhanced transaction as read by `parse_transaction`
(helius.py lines 93-122): absent `type`/`source` keys are represented by
their `.get` defaults `""` and `"unknown"`; `accountData` is kept in its
stringified form because the code only does substring matching on
`str(tx.get("accountData", []))` (line 341). -/
structure HeliusTx where
  signature : String
  timestamp : Option ℤ
  txType : String
  source : String
  tokenTransfers : List TokenTransfer
  nativeTransfers : List NativeTransfer
  accountData : String
  deriving Repr, DecidableEq

/-- The dict returned by `parse_transaction` (helius.py lines 345-361). -/
structure ParsedTx where
  signature : String
  wallet_address : String
  token_mint : String
  tx_type : String
  category : String
  amount_token : ℚ
  amount_sol : ℚ
  price_per_token : ℚ
  dex_name : String
  transfer_destination : Option String
  block_time : Option ℤ
  helius_type : String
  other_token_mint : Option String
  other_token_amount : ℚ
  deriving Repr, DecidableEq

/-- The explicit swap type hints (helius.py line 101). -/
def swapTypeHints : List String := ["SWAP", "INIT_SWAP", "BUY", "SELL"]

/-- The explicit swap source hints (helius.py line 103). -/
def swapSourceHints : List String :=
  ["JUPITER", "RAYDIUM", "ORCA", "METEORA", "PUMP_FUN", "PUMPFUN", "MOONSHOT"]

/-- The explicit-marker part of `is_swap` (helius.py lines 100-104). -/
def swapHint (tx : HeliusTx) : Bool :=
  swapTypeHints.contains tx.txType
    || hasSub (strUpper tx.txType) "SWAP"
    || swapSourceHints.contains (strUpper tx.source)

/-- Value of `wallet_in_tokens` / `wallet_involved` (helius.py lines 126-129 and
141-144): the owner occurs on either side of some token transfer. -/
def walletInTokens (tx : HeliusTx) (w : String) : Bool :=
  tx.tokenTransfers.any (fun t => t.fromUser == w || t.toUser == w)

/-- Value of `wallet_in_native` (helius.py lines 130-133). -/
def walletInNative (tx : HeliusTx) (w : String) : Bool :=
  tx.nativeTransfers.any (fun t => t.fromUser == w || t.toUser == w)

/-- Value of `total_native_transfer` (helius.py lines 146-150): SOL total of native
transfers that involve the owner. -/
def involvedNativeTotal (tx : HeliusTx) (w : String) : ℚ :=
  ((tx.nativeTransfers.filter (fun t => t.fromUser == w || t.toUser == w)).map
    (fun t => t.amountLamports / 1000000000)).sum

/-- Full swap detection (helius.py lines 100-154): explicit hints, then the
token+native structural fallback (lines 125-136), then the token-for-token
fallback (lines 140-154). -/
def isSwapDetected (tx : HeliusTx) (w : String) : Bool :=
  let s1 := swapHint tx
  let s2 := if !s1 && !tx.tokenTransfers.isEmpty && !tx.nativeTransfers.isEmpty
               && walletInTokens tx w && walletInNative tx w
            then true else s1
  if !s2 && decide (2 ≤ tx.tokenTransfers.length) && walletInTokens tx w
       && decide (involvedNativeTotal tx w < 1/100)
  then true else s2

/-- Python truthiness of the `transfer_destination` variable (a `None` or a
string): falsy when `None` or empty. -/
def optFalsy : Option String → Bool
  | none => true
  | some s => s == ""

/-- Model of `if mint not in token_changes: token_changes[mint] = 0` (helius.py lines
202-203). -/
def ensureKey (m : String) : List (String × ℚ) → List (String × ℚ)
  | [] => [(m, 0)]
  | kv :: rest => if kv.1 = m then kv :: rest else kv :: ensureKey m rest

/-- Model of `token_changes[mint] += d` for a key that is already present. -/
def bump (m : String) (d : ℚ) : List (String × ℚ) → List (String × ℚ)
  | [] => []
  | kv :: rest => if kv.1 = m then (kv.1, kv.2 + d) :: rest else kv :: bump m d rest

/-- The running state of the token-transfer loop (helius.py lines 177-180):
per-mint net changes, the owner's running SOL change, and the first transfer
destination. -/
structure TokenLoopState where
  token_changes : List (String × ℚ)
  sol_change : ℚ
  transfer_destination : Option String
  deriving Repr, DecidableEq

/-- One iteration of the token-transfer loop (helius.py lines 183-210):
non-positive amounts are skipped, WSOL contributes to `sol_change`, other
mints to `token_changes`; for `category == "transfer"` the first outgoing
transfer records its destination. -/
def tokenLoopStep (w category : String) (s : TokenLoopState) (t : TokenTransfer) :
    TokenLoopState :=
  if t.tokenAmount ≤ 0 then s
  else if t.mint = WSOL_MINT then
    if t.toUser = w then { s with sol_change := s.sol_change + t.tokenAmount }
    else if t.fromUser = w then
      { s with sol_change := s.sol_change - t.tokenAmount,
               transfer_destination :=
                 if category = "transfer" ∧ optFalsy s.transfer_destination
                 then some t.toUser else s.transfer_destination }
    else s
  else
    let tc := ensureKey t.mint s.token_changes
    if t.toUser = w then { s with token_changes := bump t.mint t.tokenAmount tc }
    else if t.fromUser = w then
      { s with token_changes := bump t.mint (-t.tokenAmount) tc,
               transfer_destination :=
                 if category = "transfer" ∧ optFalsy s.transfer_destination
                 then some t.toUser else s.transfer_destination }
    else { s with token_changes := tc }

/-- The token-transfer loop, started from empty changes, zero SOL change and
no destination. -/
def tokenLoop (w category : String) (ts : List TokenTransfer) : TokenLoopState :=
  ts.foldl (tokenLoopStep w category) ⟨[], 0, none⟩

/-- One iteration of the native-transfer loop (helius.py lines 213-224):
lamports are scaled to SOL, dust below `0.0001` is skipped, and the sign is
taken from the owner's perspective. -/
def nativeLoopStep (w : String) (sc : ℚ) (t : NativeTransfer) : ℚ :=
  let amount := t.amountLamports / 1000000000
  if amount < 1/10000 then sc
  else if t.toUser = w then sc + amount
  else if t.fromUser = w then sc - amount
  else sc

/-- Model of `max(token_changes.items(), key=lambda x: abs(x[1]))` (helius.py line
231): Python `max` keeps the first item among ties, and returns nothing on
an empty dict (the code returns `None` earlier in that case, line 227). -/
def maxByAbs : List (String × ℚ) → Option (String × ℚ)
  | [] => none
  | x :: xs => some (xs.foldl (fun best y => if |best.2| < |y.2| then y else best) x)

/-- The other-side search of a token-for-token swap (helius.py lines
244-252): the first mint different from the primary one, with the magnitude
of its change. -/
def findOther (main : String) : List (String × ℚ) → Option (String × ℚ)
  | [] => none
  | kv :: rest => if kv.1 ≠ main then some (kv.1, |kv.2|) else findOther main rest

/-- The buy-branch fallback (helius.py lines 264-267): the largest native
transfer sent by the owner, starting from the current `amount_sol`. -/
def maxFromNative (w : String) (amount_sol : ℚ) (ns : List NativeTransfer) : ℚ :=
  ns.foldl (fun a t => if t.fromUser = w then max a (t.amountLamports / 1000000000) else a)
    amount_sol

/-- The sell-branch fallback (helius.py lines 275-278): the largest native
transfer received by the owner. -/
def maxToNative (w : String) (amount_sol : ℚ) (ns : List NativeTransfer) : ℚ :=
  ns.foldl (fun a t => if t.toUser = w then max a (t.amountLamports / 1000000000) else a)
    amount_sol

/-- Subtype assignment and amount attribution (helius.py lines 254-333):
given the category, the primary token's net change and the owner's SOL
change, produce `(swap_type, amount_token, amount_sol)`. -/
def assignSubtype (category : String) (token_change sol_change : ℚ) (w : String)
    (native_transfers : List NativeTransfer) : String × ℚ × ℚ :=
  if category = "swap" then
    if 0 < token_change then
      let a1 := if sol_change < 0 then |sol_change| else 0
      let a2 := if a1 = 0 then maxFromNative w a1 native_transfers else a1
      ("buy", token_change, a2)
    else
      let a1 := if 0 < sol_change then sol_change else 0
      let a2 := if a1 = 0 then maxToNative w a1 native_transfers else a1
      ("sell", |token_change|, a2)
  else if category = "transfer" then
    if 0 < token_change then ("transfer_in", token_change, 0)
    else ("transfer_out", |token_change|, 0)
  else if category = "airdrop" then ("airdrop", |token_change|, 0)
  else if category = "staking" then
    if 0 < token_change then ("staking_reward", token_change, 0)
    else ("stake", |token_change|, 0)
  else if category = "liquidity" then
    if 0 < token_change then
      ("liquidity_remove", token_change, if sol_change < 0 then |sol_change| else 0)
    else ("liquidity_add", |token_change|, if 0 < sol_change then sol_change else 0)
  else if category = "burn" then ("burn", |token_change|, 0)
  else if 0 < token_change then ("other_in", token_change, 0)
  else ("other_out", |token_change|, 0)

/-- Value of `dex_name` (helius.py lines 338-343): lowercased source (or "unknown"
when falsy), overridden by the first known DEX program id occurring in the
stringified account data. -/
def dexName (source accountDataStr : String) : String :=
  let base := if source = "" then "unknown" else strLower source
  if hasSub accountDataStr "JUP6LkbZbjS1jKKwapdHNy74zcZ3tLUZoi5QNyVTaV4" then "jupiter"
  else if hasSub accountDataStr "675kPX9MHTjS2zt1qfr1NYHuzeLXfQM9H24wFSUt1Mp8" then "raydium"
  else if hasSub accountDataStr "whirLbMiicVdio4qvUfM5KAg6Ct8VwpYzGff3uctyCc" then "orca"
  else if hasSub accountDataStr "SSwpkEEcbUqx4vtoEByFjSkhKdCT862DNVb52nZg1UZ" then "saber"
  else base

/-- Model of `datetime.fromtimestamp(timestamp, tz=timezone.utc) if timestamp else
None` (helius.py line 356); Python truthiness sends a 0 timestamp to `None`
as well. -/
def blockTimeOf : Option ℤ → Option ℤ
  | none => none
  | some t => if t = 0 then none else some t

/-- Value of `is_transfer` (helius.py line 107). -/
def transferHint (tx : HeliusTx) : Bool := ["TRANSFER"].contains tx.txType

/-- Value of `is_airdrop` (helius.py line 110). -/
def airdropHint (tx : HeliusTx) : Bool :=
  ["TOKEN_MINT", "COMPRESSED_NFT_MINT", "NFT_MINT"].contains tx.txType

/-- Value of `is_staking` (helius.py line 113). -/
def stakingHint (tx : HeliusTx) : Bool :=
  ["STAKE_TOKEN", "UNSTAKE_TOKEN", "STAKE_SOL", "UNSTAKE_SOL", "CLAIM_REWARDS"].contains tx.txType

/-- Value of `is_liquidity` (helius.py line 116). -/
def liquidityHint (tx : HeliusTx) : Bool :=
  ["ADD_LIQUIDITY", "REMOVE_FROM_POOL", "CREATE_POOL"].contains tx.txType

/-- Value of `is_burn` (helius.py line 119). -/
def burnHint (tx : HeliusTx) : Bool := ["BURN", "BURN_NFT"].contains tx.txType

/-- Value of `is_relevant` (helius.py line 157). -/
def isRelevant (tx : HeliusTx) (w : String) : Bool :=
  isSwapDetected tx w || transferHint tx || airdropHint tx || stakingHint tx
    || liquidityHint tx || burnHint tx

/-- The category chain (helius.py lines 161-175). -/
def categoryOf (tx : HeliusTx) (w : String) : String :=
  if isSwapDetected tx w then "swap"
  else if transferHint tx then "transfer"
  else if airdropHint tx then "airdrop"
  else if stakingHint tx then "staking"
  else if liquidityHint tx then "liquidity"
  else if burnHint tx then "burn"
  else "other"

/-- Model of `HeliusService.parse_transaction` (helius.py lines 76-365) on a
well-typed transaction: category detection, per-mint net-change aggregation,
primary token selection, subtype assignment, pricing, and assembly of the
result dict.  Irrelevant or empty-movement transactions yield `none`. -/
def parseTransaction (tx : HeliusTx) (wallet_address : String) : Option ParsedTx :=
  if !(isRelevant tx wallet_address) then none
  else
    let category := categoryOf tx wallet_address
    let tls := tokenLoop wallet_address category tx.tokenTransfers
    let sol_change := tx.nativeTransfers.foldl (nativeLoopStep wallet_address) tls.sol_change
    match maxByAbs tls.token_changes with
    | none => none
    | some tm =>
      if |tm.2| < 1/10000 then none
      else
        let other := if 2 ≤ tls.token_changes.length then findOther tm.1 tls.token_changes
                     else none
        let st := assignSubtype category tm.2 sol_change wallet_address tx.nativeTransfers
        let price_per_token := if 0 < st.2.1 then st.2.2 / st.2.1 else 0
        some
          { signature := tx.signature, wallet_address := wallet_address,
            token_mint := tm.1, tx_type := st.1, category := category,
            amount_token := st.2.1, amount_sol := st.2.2,
            price_per_token := price_per_token,
            dex_name := dexName tx.source tx.accountData,
            transfer_destination := tls.transfer_destination,
            block_time := blockTimeOf tx.timestamp,
            helius_type := tx.txType,
            other_token_mint := other.map (fun q => q.1),
            other_token_amount := (other.map (fun q => q.2)).getD 0 }

/-! ## Dynamic fragment for the exception analysis of `parse_transaction` -/

/-- Dynamically-typed Python values reaching `parse_transaction` when its
input dict is malformed. -/
inductive PyVal where
  | vNone
  | vInt (n : ℤ)
  | vStr (s : String)
  | vDict (entries : List (String × PyVal))
  deriving Repr

/-- The Python exception classes relevant to the analysed path. -/
inductive PyExc where
  | attributeError
  | typeError
  deriving Repr, DecidableEq

/-- Python `v.get(key, default)`: a dict read with default; calling `.get` on a
non-dict raises `AttributeError`. -/
def pyGet (v : PyVal) (key : String) (default : PyVal) : Except PyExc PyVal :=
  match v with
  | .vDict es => .ok ((lookupA key es).getD default)
  | _ => .error .attributeError

/-- Python `v.upper()`: uppercasing; on a non-string the attribute access raises
`AttributeError`. -/
def pyUpper : PyVal → Except PyExc PyVal
  | .vStr s => .ok (.vStr (strUpper s))
  | _ => .error .attributeError

/-- Python `v[:8]`: slicing; `None` and integers are not subscriptable and raise
`TypeError`. -/
def pySlice8 : PyVal → Except PyExc PyVal
  | .vStr s => .ok (.vStr (String.mk (s.data.take 8)))
  | _ => .error .typeError

/-- Python `v in [list of string literals]`: membership by equality, never
raising. -/
def pyInStrs (v : PyVal) (ss : List String) : Bool :=
  match v with
  | .vStr s => ss.contains s
  | _ => false

/-- The opening reads and the `is_swap` expression of `parse_transaction`
(helius.py lines 93-104), with Python's short-circuit `or`: on an input dict
whose `type` value is not a string, the call `tx_type.upper()` raises
`AttributeError` inside the `try` body. -/
def swapHintCheck (tx : PyVal) : Except PyExc Bool := do
  let _signature ← pyGet tx "signature" .vNone
  let _timestamp ← pyGet tx "timestamp" .vNone
  let tx_type ← pyGet tx "type" (.vStr "")
  let source ← pyGet tx "source" (.vStr "unknown")
  if pyInStrs tx_type swapTypeHints then pure true
  else
    match pyUpper tx_type with
    | .error e => .error e
    | .ok u =>
      if (match u with | .vStr us => hasSub us "SWAP" | _ => false) then pure true
      else
        match pyUpper source with
        | .error e => .error e
        | .ok su => pure (match su with | .vStr s2 => swapSourceHints.contains s2 | _ => false)

/-- The f-string argument of the warning in the `except` handler (helius.py
line 364) evaluates `tx.get('signature', 'unknown')[:8]` before anything is
logged; when the dict holds `signature: None` this slices `None` and raises
`TypeError` out of the handler itself. -/
def exceptLogSliceExpr (tx : PyVal) : Except PyExc PyVal := do
  let s ← pyGet tx "signature" (.vStr "unknown")
  pySlice8 s

/-- A malformed but dict-shaped input: the `signature` key is present with
value `None` and the `type` key holds an integer. -/
def badTx : PyVal := .vDict [("signature", .vNone), ("type", .vInt 123)]

/-! ## Auxiliary predicates used by the claims -/

/-- An empty SOL-price map: every signature falls back to the code's default
price of 200 (pnl.py line 159). -/
def noPrices : String → Option ℚ := fun _ => none

/-- Coverage of disposals along a transaction list: at each `"sell"` step the
disposed amount is nonnegative and does not exceed the total amount then held
in that token's lot queue. -/
def coveredB (sol_prices : String → Option ℚ) : LedgerState → List PnlTx → Bool
  | _, [] => true
  | s, tx :: rest =>
    if tx.tx_type = "sell" then
      if 0 ≤ tx.amount_token ∧ tx.amount_token ≤ sumAmounts (lotsOf s tx.token_mint) then
        coveredB sol_prices (step sol_prices s tx) rest
      else false
    else coveredB sol_prices (step sol_prices s tx) rest

/-- The owner has no outgoing native flow in a transaction: no native
transfer sent by the owner, and no positive WSOL transfer leaving the owner
for a third party (a WSOL self-transfer is counted as incoming by helius.py
line 194). -/
def noNativeOut (tx : HeliusTx) (w : String) : Prop :=
  (∀ t ∈ tx.nativeTransfers, t.fromUser ≠ w) ∧
  (∀ t ∈ tx.tokenTransfers, t.mint = WSOL_MINT → t.fromUser = w →
    (t.toUser = w ∨ t.tokenAmount ≤ 0))

/-- The owner has no incoming native flow in a transaction: no native
transfer received by the owner and no positive WSOL transfer arriving at the
owner. -/
def noNativeIn (tx : HeliusTx) (w : String) : Prop :=
  (∀ t ∈ tx.nativeTransfers, t.toUser ≠ w) ∧
  (∀ t ∈ tx.tokenTransfers, t.mint = WSOL_MINT → t.toUser = w → t.tokenAmount ≤ 0)

/-! ## Helper lemmas about association lists and lot consumption -/

theorem lookupA_updateA_self {α : Type} (k : String) (v : α) (l : List (String × α)) :
    lookupA k (updateA k v l) = some v := by
  induction l with
  | nil => simp [updateA, lookupA]
  | cons kv rest ih =>
    by_cases h : kv.1 = k <;> simp [updateA, lookupA, h, ih]

theorem lookupA_updateA_ne {α : Type} {m k : String} (hm : m ≠ k) (v : α)
    (l : List (String × α)) : lookupA m (updateA k v l) = lookupA m l := by
  induction l with
  | nil => simp [updateA, lookupA, Ne.symm hm]
  | cons kv rest ih =>
    by_cases h : kv.1 = k
    · simp [updateA, lookupA, h, Ne.symm hm]
    · simp [updateA, lookupA, h, ih]

theorem sumAmounts_nil : sumAmounts [] = 0 := rfl

theorem sumAmounts_cons (lot : CostBasisLot) (rest : List CostBasisLot) :
    sumAmounts (lot :: rest) = lot.amount + sumAmounts rest := by
  simp [sumAmounts]

theorem sumAmounts_append (a b : List CostBasisLot) :
    sumAmounts (a ++ b) = sumAmounts a + sumAmounts b := by
  simp [sumAmounts]

theorem lotsCost_nil : lotsCost [] = 0 := rfl

theorem lotsCost_cons (lot : CostBasisLot) (rest : List CostBasisLot) :
    lotsCost (lot :: rest) = lot.amount * lot.price_sol + lotsCost rest := by
  simp [lotsCost]

theorem lotsCost_append (a b : List CostBasisLot) :
    lotsCost (a ++ b) = lotsCost a + lotsCost b := by
  simp [lotsCost]

theorem sumAmounts_nonneg {lots : List CostBasisLot}
    (h : ∀ l ∈ lots, 0 ≤ l.amount) : 0 ≤ sumAmounts lots := by
  induction lots with
  | nil => simp [sumAmounts_nil]
  | cons lot rest ih =>
    have h1 := h lot (List.mem_cons_self lot rest)
    have h2 := ih (fun l hl => h l (List.mem_cons_of_mem lot hl))
    rw [sumAmounts_cons]; linarith

/-- A non-positive remainder keeps every lot and accumulates no cost. -/
theorem consumeLots_nonpos {r : ℚ} (h : r ≤ 0) (lots : List CostBasisLot) :
    consumeLots r lots = (0, lots) := by
  induction lots with
  | nil => rfl
  | cons lot rest ih => simp [consumeLots, h, ih]

/-- A covered disposal removes exactly the disposed amount from the queue. -/
theorem consumeLots_sum {r : ℚ} {lots : List CostBasisLot}
    (h0 : 0 ≤ r) (hle : r ≤ sumAmounts lots) :
    sumAmounts (consumeLots r lots).2 = sumAmounts lots - r := by
  induction lots generalizing r with
  | nil =>
    have : r = 0 := le_antisymm (by simpa [sumAmounts_nil] using hle) h0
    simp [consumeLots, this, sumAmounts_nil]
  | cons lot rest ih =>
    by_cases hr : r ≤ 0
    · have : r = 0 := le_antisymm hr h0
      subst this
      simp [consumeLots_nonpos (le_refl (0 : ℚ))]
    · rw [sumAmounts_cons] at hle
      by_cases hla : lot.amount ≤ r
      · have h0' : 0 ≤ r - lot.amount := by linarith
        have hle' : r - lot.amount ≤ sumAmounts rest := by linarith
        have := ih h0' hle'
        simp [consumeLots, hr, hla, this, sumAmounts_cons]
        ring
      · simp [consumeLots, hr, hla, consumeLots_nonpos (le_refl (0 : ℚ)),
          sumAmounts_cons]
        ring

/-- A disposal strictly larger than the queue's total (with nonnegative
lots) consumes every lot whole and accumulates exactly the full queue
cost. -/
theorem consumeLots_exhaust {r : ℚ} {lots : List CostBasisLot}
    (hlt : sumAmounts lots < r) (hpos : ∀ l ∈ lots, 0 ≤ l.amount) :
    consumeLots r lots = (lotsCost lots, []) := by
  induction lots generalizing r with
  | nil => simp [consumeLots, lotsCost_nil]
  | cons lot rest ih =>
    rw [sumAmounts_cons] at hlt
    have ha : 0 ≤ lot.amount := hpos lot (List.mem_cons_self lot rest)
    have hrest : ∀ l ∈ rest, 0 ≤ l.amount :=
      fun l hl => hpos l (List.mem_cons_of_mem lot hl)
    have hsr : 0 ≤ sumAmounts rest := sumAmounts_nonneg hrest
    have hr : ¬ r ≤ 0 := by push_neg; linarith
    have hla : lot.amount ≤ r := by linarith
    have hlt' : sumAmounts rest < r - lot.amount := by linarith
    simp [consumeLots, hr, hla, ih hlt' hrest, lotsCost_cons]

/-! ## Per-step characterisation of the ledger fold -/

theorem run_nil (prices : String → Option ℚ) (s : LedgerState) :
    run prices [] s = s := rfl

theorem run_cons (prices : String → Option ℚ) (tx : PnlTx) (l : List PnlTx)
    (s : LedgerState) : run prices (tx :: l) s = run prices l (step prices s tx) := rfl

/-- A step only touches its own token's entries. -/
theorem step_ne_mint (prices : String → Option ℚ) (s : LedgerState) (tx : PnlTx)
    {m : String} (hm : m ≠ tx.token_mint) :
    lotsOf (step prices s tx) m = lotsOf s m
    ∧ holdingOf (step prices s tx) m = holdingOf s m := by
  unfold step
  split_ifs <;> simp [lotsOf, holdingOf, lookupA_updateA_ne hm]

/-- Effect of a `"buy"` transaction on its token's projections (pnl.py lines
181-193). -/
theorem step_buy (prices : String → Option ℚ) (s : LedgerState) (tx : PnlTx)
    (h : tx.tx_type = "buy") :
    lotsOf (step prices s tx) tx.token_mint
      = lotsOf s tx.token_mint ++
        [{ amount := tx.amount_token, price_sol := tx.price_per_token,
           price_usd := tx.price_per_token * ((prices tx.signature).getD 200),
           timestamp := tx.block_time }]
    ∧ balOf (step prices s tx) tx.token_mint = balOf s tx.token_mint + tx.amount_token
    ∧ costOf (step prices s tx) tx.token_mint
        = costOf s tx.token_mint + tx.amount_token * tx.price_per_token
    ∧ boughtOf (step prices s tx) tx.token_mint = boughtOf s tx.token_mint + tx.amount_token
    ∧ buySolOf (step prices s tx) tx.token_mint
        = buySolOf s tx.token_mint + tx.amount_token * tx.price_per_token
    ∧ soldOf (step prices s tx) tx.token_mint = soldOf s tx.token_mint
    ∧ sellSolOf (step prices s tx) tx.token_mint = sellSolOf s tx.token_mint
    ∧ realizedOf (step prices s tx) tx.token_mint = realizedOf s tx.token_mint
    ∧ realizedUsdOf (step prices s tx) tx.token_mint = realizedUsdOf s tx.token_mint
    ∧ tradeCountOf (step prices s tx) tx.token_mint = tradeCountOf s tx.token_mint + 1
    ∧ lastOf (step prices s tx) tx.token_mint = tx.block_time
    ∧ firstOf (step prices s tx) tx.token_mint
        = (if hasHolding s tx.token_mint then firstOf s tx.token_mint else tx.block_time) := by
  cases hl : lookupA tx.token_mint s.token_holdings <;>
    simp [step, h, lotsOf, holdingOf, balOf, costOf, boughtOf, buySolOf, soldOf,
      sellSolOf, realizedOf, realizedUsdOf, tradeCountOf, firstOf, lastOf,
      hasHolding, lookupA_updateA_self, hl, initHolding]

/-- Effect of a `"sell"` transaction on its token's projections (pnl.py
lines 195-214). -/
theorem step_sell (prices : String → Option ℚ) (s : LedgerState) (tx : PnlTx)
    (h : tx.tx_type = "sell") :
    lotsOf (step prices s tx) tx.token_mint
      = (consumeLots tx.amount_token (lotsOf s tx.token_mint)).2
    ∧ balOf (step prices s tx) tx.token_mint = balOf s tx.token_mint - tx.amount_token
    ∧ costOf (step prices s tx) tx.token_mint
        = lotsCost (consumeLots tx.amount_token (lotsOf s tx.token_mint)).2
    ∧ boughtOf (step prices s tx) tx.token_mint = boughtOf s tx.token_mint
    ∧ buySolOf (step prices s tx) tx.token_mint = buySolOf s tx.token_mint
    ∧ soldOf (step prices s tx) tx.token_mint = soldOf s tx.token_mint + tx.amount_token
    ∧ sellSolOf (step prices s tx) tx.token_mint
        = sellSolOf s tx.token_mint + tx.amount_token * tx.price_per_token
    ∧ realizedOf (step prices s tx) tx.token_mint
        = realizedOf s tx.token_mint
          + (tx.amount_token * tx.price_per_token
             - (consumeLots tx.amount_token (lotsOf s tx.token_mint)).1)
    ∧ realizedUsdOf (step prices s tx) tx.token_mint
        = realizedUsdOf s tx.token_mint
          + (tx.amount_token * tx.price_per_token
             - (consumeLots tx.amount_token (lotsOf s tx.token_mint)).1)
            * ((prices tx.signature).getD 200)
    ∧ tradeCountOf (step prices s tx) tx.token_mint = tradeCountOf s tx.token_mint + 1
    ∧ lastOf (step prices s tx) tx.token_mint = tx.block_time
    ∧ firstOf (step prices s tx) tx.token_mint
        = (if hasHolding s tx.token_mint then firstOf s tx.token_mint else tx.block_time) := by
  cases hl : lookupA tx.token_mint s.token_holdings <;>
    simp [step, h, calculate_realized_pnl, lotsOf, holdingOf, balOf, costOf,
      boughtOf, buySolOf, soldOf, sellSolOf, realizedOf, realizedUsdOf,
      tradeCountOf, firstOf, lastOf, hasHolding, lookupA_updateA_self, hl,
      initHolding]

/-- Effect of any transaction that is neither a `"buy"` nor a `"sell"`: only
`trade_count`, `last_trade` (and `first_trade` on the token's first
transaction) change (pnl.py lines 161-179). -/
theorem step_noop (prices : String → Option ℚ) (s : LedgerState) (tx : PnlTx)
    (hb : tx.tx_type ≠ "buy") (hs : tx.tx_type ≠ "sell") :
    lotsOf (step prices s tx) tx.token_mint = lotsOf s tx.token_mint
    ∧ balOf (step prices s tx) tx.token_mint = balOf s tx.token_mint
    ∧ costOf (step prices s tx) tx.token_mint = costOf s tx.token_mint
    ∧ boughtOf (step prices s tx) tx.token_mint = boughtOf s tx.token_mint
    ∧ buySolOf (step prices s tx) tx.token_mint = buySolOf s tx.token_mint
    ∧ soldOf (step prices s tx) tx.token_mint = soldOf s tx.token_mint
    ∧ sellSolOf (step prices s tx) tx.token_mint = sellSolOf s tx.token_mint
    ∧ realizedOf (step prices s tx) tx.token_mint = realizedOf s tx.token_mint
    ∧ realizedUsdOf (step prices s tx) tx.token_mint = realizedUsdOf s tx.token_mint
    ∧ tradeCountOf (step prices s tx) tx.token_mint = tradeCountOf s tx.token_mint + 1
    ∧ lastOf (step prices s tx) tx.token_mint = tx.block_time
    ∧ firstOf (step prices s tx) tx.token_mint
        = (if hasHolding s tx.token_mint then firstOf s tx.token_mint else tx.block_time) := by
  cases hl : lookupA tx.token_mint s.token_holdings <;>
    simp [step, hb, hs, lotsOf, holdingOf, balOf, costOf, boughtOf, buySolOf,
      soldOf, sellSolOf, realizedOf, realizedUsdOf, tradeCountOf, firstOf,
      lastOf, hasHolding, lookupA_updateA_self, hl, initHolding]

/-- Extraction of the head conditions of a covered transaction list. -/
theorem coveredB_cons {prices : String → Option ℚ} {s : LedgerState} {tx : PnlTx}
    {rest : List PnlTx} (h : coveredB prices s (tx :: rest) = true) :
    (tx.tx_type = "sell" →
      0 ≤ tx.amount_token ∧ tx.amount_token ≤ sumAmounts (lotsOf s tx.token_mint))
    ∧ coveredB prices (step prices s tx) rest = true := by
  by_cases hs : tx.tx_type = "sell"
  · simp only [coveredB, if_pos hs] at h
    split_ifs at h with hc
    · exact ⟨fun _ => hc, h⟩
  · simp only [coveredB, if_neg hs] at h
    exact ⟨fun hh => absurd hh hs, h⟩

/-- One covered step preserves the balance/lot-sum invariant. -/
theorem step_inv (prices : String → Option ℚ) (s : LedgerState) (tx : PnlTx)
    (hinv : ∀ m, balOf s m = sumAmounts (lotsOf s m))
    (hsell : tx.tx_type = "sell" →
      0 ≤ tx.amount_token ∧ tx.amount_token ≤ sumAmounts (lotsOf s tx.token_mint)) :
    ∀ m, balOf (step prices s tx) m = sumAmounts (lotsOf (step prices s tx) m) := by
  intro m
  by_cases hm : m = tx.token_mint
  · subst hm
    by_cases hb : tx.tx_type = "buy"
    · obtain ⟨hl, hbal, -⟩ := step_buy prices s tx hb
      rw [hbal, hl, sumAmounts_append, sumAmounts_cons, sumAmounts_nil, hinv]
      ring
    · by_cases hsel : tx.tx_type = "sell"
      · obtain ⟨hl, hbal, -⟩ := step_sell prices s tx hsel
        obtain ⟨h0, hle⟩ := hsell hsel
        rw [hbal, hl, consumeLots_sum h0 hle, hinv]
      · obtain ⟨hl, hbal, -⟩ := step_noop prices s tx hb hsel
        rw [hbal, hl, hinv]
  · obtain ⟨hl, hh⟩ := step_ne_mint prices s tx hm
    have := hinv m
    simp only [balOf] at this ⊢
    rw [hh, hl]
    exact this

/-- The balance/lot-sum invariant holds after every prefix of a covered
fold. -/
theorem run_inv (prices : String → Option ℚ) :
    ∀ (l : List PnlTx) (s : LedgerState),
    (∀ m, balOf s m = sumAmounts (lotsOf s m)) →
    coveredB prices s l = true →
    ∀ n m, balOf (run prices (l.take n) s) m
      = sumAmounts (lotsOf (run prices (l.take n) s) m) := by
  intro l
  induction l with
  | nil =>
    intro s hinv _ n m
    simpa [run_nil] using hinv m
  | cons tx rest ih =>
    intro s hinv hcov n m
    obtain ⟨hc1, hc2⟩ := coveredB_cons hcov
    cases n with
    | zero => simpa [run_nil] using hinv m
    | succ k =>
      rw [List.take_succ_cons, run_cons]
      exact ih (step prices s tx) (step_inv prices s tx hinv hc1) hc2 k m

/-- Field `total_cost_sol` always equals the cost of the remaining lots along any
fold from the empty state. -/
theorem run_costInv (prices : String → Option ℚ) (l : List PnlTx) :
    ∀ (s : LedgerState), (∀ m, costOf s m = lotsCost (lotsOf s m)) →
    ∀ m, costOf (run prices l s) m = lotsCost (lotsOf (run prices l s) m) := by
  induction l with
  | nil =>
    intro s hs m
    simpa [run_nil] using hs m
  | cons tx rest ih =>
    intro s hs m
    rw [run_cons]
    refine ih (step prices s tx) ?_ m
    intro m'
    by_cases hm : m' = tx.token_mint
    · subst hm
      by_cases hb : tx.tx_type = "buy"
      · obtain ⟨hl, -, hc, -⟩ := step_buy prices s tx hb
        rw [hc, hl, lotsCost_append, lotsCost_cons, lotsCost_nil, hs]
        ring
      · by_cases hsel : tx.tx_type = "sell"
        · obtain ⟨hl, -, hc, -⟩ := step_sell prices s tx hsel
          rw [hc, hl]
        · obtain ⟨hl, -, hc, -⟩ := step_noop prices s tx hb hsel
          rw [hc, hl, hs]
    · obtain ⟨hl, hh⟩ := step_ne_mint prices s tx hm
      have := hs m'
      simp only [costOf] at this ⊢
      rw [hh, hl]
      exact this

/-- The empty state satisfies the balance invariant. -/
theorem initState_inv : ∀ m, balOf initState m = sumAmounts (lotsOf initState m) := by
  intro m
  simp [balOf, lotsOf, holdingOf, initState, lookupA, initHolding, sumAmounts_nil]

/-- The empty state satisfies the cost invariant. -/
theorem initState_costInv : ∀ m, costOf initState m = lotsCost (lotsOf initState m) := by
  intro m
  simp [costOf, lotsOf, holdingOf, initState, lookupA, initHolding, lotsCost_nil]

/-! ## Claims about the ledger -/

/-- C1 (amended): conservation holds for every fold prefix provided each
disposal is covered — its amount is nonnegative and at most the total amount
then held in that token's lot queue.  (As stated unconditionally the claim
fails: see `conservation_fails_on_uncovered_disposal`.) -/
theorem conservation_under_covered_disposals (sol_prices : String → Option ℚ)
    (txs : List PnlTx)
    (hcov : coveredB sol_prices initState (sortTxs txs) = true) :
    ∀ n mint, balOf (run sol_prices ((sortTxs txs).take n) initState) mint
      = sumAmounts (lotsOf (run sol_prices ((sortTxs txs).take n) initState) mint) :=
  run_inv sol_prices (sortTxs txs) initState initState_inv hcov

/-- Witness for C1's amended theorem: a covered buy-then-sell history on one
mint, checked after both steps. -/
theorem conservation_under_covered_disposals_witness :
    balOf (run noPrices ((sortTxs [⟨"M", "buy", 2, 1, some 1, "a"⟩,
        ⟨"M", "sell", 1, 1, some 2, "b"⟩]).take 2) initState) "M"
      = sumAmounts (lotsOf (run noPrices ((sortTxs [⟨"M", "buy", 2, 1, some 1, "a"⟩,
        ⟨"M", "sell", 1, 1, some 2, "b"⟩]).take 2) initState) "M") :=
  conservation_under_covered_disposals noPrices
    [⟨"M", "buy", 2, 1, some 1, "a"⟩, ⟨"M", "sell", 1, 1, some 2, "b"⟩]
    (by norm_num [coveredB, sortTxs, insertByTime, leKey, step, initState,
        initHolding, lookupA, updateA, lotsOf, holdingOf, sumAmounts,
        calculate_realized_pnl, consumeLots, noPrices]
        all_goals decide) 2 "M"

/-- C1 counterexample: a single disposal of 1 token from an empty position
leaves a balance of -1 against an empty lot queue, so the unconditional
conservation invariant of the claim is violated by the code. -/
theorem conservation_fails_on_uncovered_disposal :
    ¬ (balOf (run noPrices [⟨"MINT", "sell", 1, 0, some 0, "sig"⟩] initState) "MINT"
       = sumAmounts (lotsOf (run noPrices [⟨"MINT", "sell", 1, 0, some 0, "sig"⟩]
           initState) "MINT")) := by
  norm_num [run_cons, run_nil, step, initState, initHolding, lookupA, updateA,
    lotsOf, holdingOf, balOf, sumAmounts, calculate_realized_pnl, consumeLots,
    noPrices]

/-- C2 (amended): in `process_transactions` only the `"buy"` subtype pushes
a lot onto the back of the queue and increases `current_balance` and
`total_bought`; only the `"sell"` subtype consumes lots from the front and
decreases `current_balance`; every other subtype — including the other
acquisition and disposal subtypes named by the claim — leaves the queue and
the balance unchanged. -/
theorem ledger_branch_effects (sol_prices : String → Option ℚ) (s : LedgerState)
    (tx : PnlTx) :
    if tx.tx_type = "buy" then
      lotsOf (step sol_prices s tx) tx.token_mint
        = lotsOf s tx.token_mint ++
          [{ amount := tx.amount_token, price_sol := tx.price_per_token,
             price_usd := tx.price_per_token * ((sol_prices tx.signature).getD 200),
             timestamp := tx.block_time }]
      ∧ balOf (step sol_prices s tx) tx.token_mint
          = balOf s tx.token_mint + tx.amount_token
      ∧ boughtOf (step sol_prices s tx) tx.token_mint
          = boughtOf s tx.token_mint + tx.amount_token
    else if tx.tx_type = "sell" then
      lotsOf (step sol_prices s tx) tx.token_mint
        = (consumeLots tx.amount_token (lotsOf s tx.token_mint)).2
      ∧ balOf (step sol_prices s tx) tx.token_mint
          = balOf s tx.token_mint - tx.amount_token
      ∧ soldOf (step sol_prices s tx) tx.token_mint
          = soldOf s tx.token_mint + tx.amount_token
    else
      lotsOf (step sol_prices s tx) tx.token_mint = lotsOf s tx.token_mint
      ∧ balOf (step sol_prices s tx) tx.token_mint = balOf s tx.token_mint := by
  split_ifs with hb hs
  · obtain ⟨hl, hbal, -, hbo, -⟩ := step_buy sol_prices s tx hb
    exact ⟨hl, hbal, hbo⟩
  · obtain ⟨hl, hbal, -, -, -, hso, -⟩ := step_sell sol_prices s tx hs
    exact ⟨hl, hbal, hso⟩
  · obtain ⟨hl, hbal, -⟩ := step_noop sol_prices s tx hb hs
    exact ⟨hl, hbal⟩

/-- C2 counterexample: a `transfer_in` of 5 tokens is processed (the trade
counter advances) but pushes no lot and leaves the balance and
`total_bought` at 0, contradicting the claim that acquisition subtypes other
than `buy` push a lot and increase the balance. -/
theorem transfer_in_creates_no_lot :
    lotsOf (run noPrices [⟨"M", "transfer_in", 5, 0, some 1, "s"⟩] initState) "M" = []
    ∧ balOf (run noPrices [⟨"M", "transfer_in", 5, 0, some 1, "s"⟩] initState) "M" = 0
    ∧ boughtOf (run noPrices [⟨"M", "transfer_in", 5, 0, some 1, "s"⟩] initState) "M" = 0
    ∧ tradeCountOf (run noPrices [⟨"M", "transfer_in", 5, 0, some 1, "s"⟩]
        initState) "M" = 1 := by
  norm_num [run_cons, run_nil, step, initState, initHolding, lookupA, updateA,
    lotsOf, holdingOf, balOf, boughtOf, tradeCountOf, noPrices]

/-- C3: Scenario B — acquire 50 @ 0.01 and 50 @ 0.03, dispose 70 @ 0.05;
the first lot is consumed whole (cost 0.5) plus 20 of the second (cost 0.6,
total cost 1.1), realized P&L is exactly 2.4 and one lot of 30 @ 0.03
remains. -/
theorem scenarioB_fifo_arithmetic :
    realizedOf (process_transactions noPrices
        [⟨"M", "buy", 50, 1/100, some 1, "b1"⟩, ⟨"M", "buy", 50, 3/100, some 2, "b2"⟩,
         ⟨"M", "sell", 70, 1/20, some 3, "s1"⟩]) "M" = 12/5
    ∧ lotsOf (process_transactions noPrices
        [⟨"M", "buy", 50, 1/100, some 1, "b1"⟩, ⟨"M", "buy", 50, 3/100, some 2, "b2"⟩,
         ⟨"M", "sell", 70, 1/20, some 3, "s1"⟩]) "M"
        = [{ amount := 30, price_sol := 3/100, price_usd := 6, timestamp := some 2 }]
    ∧ (consumeLots 70 [⟨50, 1/100, 2, some 1⟩, ⟨50, 3/100, 6, some 2⟩]).1 = 11/10 := by
  norm_num [process_transactions, finalize, run, sortTxs, insertByTime, leKey,
    step, initState, initHolding, lookupA, updateA, lotsOf, holdingOf,
    realizedOf, calculate_realized_pnl, consumeLots, sumAmounts, lotsCost,
    noPrices, List.foldl]

/-- C4 (amended): a disposal strictly exceeding the queue total (lots being
nonnegative) never crashes the total fold function: the queue empties, the
balance still falls by the full amount, and realized P&L gains the full
proceeds minus only the cost of the lots actually present — zero cost for
the uncovered portion.  No basis-incomplete flag exists in the result (see
`no_basis_incomplete_flag`). -/
theorem uncovered_disposal_zero_cost (sol_prices : String → Option ℚ)
    (s : LedgerState) (tx : PnlTx) (hsell : tx.tx_type = "sell")
    (hgt : sumAmounts (lotsOf s tx.token_mint) < tx.amount_token)
    (hpos : ∀ lot ∈ lotsOf s tx.token_mint, 0 ≤ lot.amount) :
    lotsOf (step sol_prices s tx) tx.token_mint = []
    ∧ balOf (step sol_prices s tx) tx.token_mint
        = balOf s tx.token_mint - tx.amount_token
    ∧ realizedOf (step sol_prices s tx) tx.token_mint
        = realizedOf s tx.token_mint
          + (tx.amount_token * tx.price_per_token - lotsCost (lotsOf s tx.token_mint)) := by
  obtain ⟨hl, hbal, -, -, -, -, -, hr, -⟩ := step_sell sol_prices s tx hsell
  have hce := consumeLots_exhaust hgt hpos
  refine ⟨?_, hbal, ?_⟩
  · rw [hl, hce]
  · rw [hr, hce]

/-- Witness for C4's amended theorem: a disposal of 100 tokens from an empty
queue. -/
theorem uncovered_disposal_zero_cost_witness :
    lotsOf (step noPrices initState ⟨"M", "sell", 100, 2, some 1, "u"⟩) "M" = []
    ∧ balOf (step noPrices initState ⟨"M", "sell", 100, 2, some 1, "u"⟩) "M"
        = balOf initState "M" - 100
    ∧ realizedOf (step noPrices initState ⟨"M", "sell", 100, 2, some 1, "u"⟩) "M"
        = realizedOf initState "M" + (100 * 2 - lotsCost (lotsOf initState "M")) :=
  uncovered_disposal_zero_cost noPrices initState ⟨"M", "sell", 100, 2, some 1, "u"⟩ rfl
    (by norm_num [lotsOf, initState, lookupA, sumAmounts])
    (by simp [lotsOf, initState, lookupA])

/-- C4 counterexample: on the uncovered disposal the fold returns a result
whose balance and realized P&L did update with zero cost for the uncovered
portion, but whose dict carries only the eleven numeric/timestamp keys plus
`avg_buy_price_sol` — no basis-incomplete flag of any spelling is attached,
contradicting the claim's last conjunct. -/
theorem no_basis_incomplete_flag :
    balOf (run noPrices [⟨"M", "sell", 100, 2, some 1, "u"⟩] initState) "M" = -100
    ∧ realizedOf (run noPrices [⟨"M", "sell", 100, 2, some 1, "u"⟩] initState) "M" = 200
    ∧ lotsOf (run noPrices [⟨"M", "sell", 100, 2, some 1, "u"⟩] initState) "M" = []
    ∧ holdingKeys.all
        (fun k => !(k == "basis_incomplete" || k == "basis-incomplete")) = true := by
  refine ⟨?_, ?_, ?_, by decide⟩ <;>
    norm_num [run_cons, run_nil, step, initState, initHolding, lookupA, updateA,
      lotsOf, holdingOf, balOf, realizedOf, calculate_realized_pnl, consumeLots,
      noPrices]

/-- C7: Scenario C — a `transfer_in` of 1000 tokens followed by a sell of
1000 @ 0.001 yields realized P&L of exactly 1: the whole proceeds count as
profit (the code ignores the `transfer_in`, so the sale consumes an empty
queue at zero cost). -/
theorem scenarioC_zero_cost_transfer_in :
    realizedOf (process_transactions noPrices
        [⟨"M", "transfer_in", 1000, 0, some 1, "t1"⟩,
         ⟨"M", "sell", 1000, 1/1000, some 2, "t2"⟩]) "M" = 1 := by
  norm_num [process_transactions, finalize, run, sortTxs, insertByTime, leKey,
    step, initState, initHolding, lookupA, updateA, lotsOf, holdingOf,
    realizedOf, calculate_realized_pnl, consumeLots, sumAmounts, lotsCost,
    noPrices, List.foldl]

/-- C9 (amended): on any state reached by the fold, an activity with
`amount_token = 0` leaves the balance, all cost totals and realized P&L
unchanged; a zero-amount disposal also leaves the lot queue unchanged, but a
zero-amount `"buy"` appends a zero-amount lot to the queue (so the position
is not entirely unchanged; see `zero_buy_appends_empty_lot`). -/
theorem zero_amount_effects (sol_prices : String → Option ℚ) (txs : List PnlTx)
    (tx : PnlTx) (h0 : tx.amount_token = 0) :
    lotsOf (step sol_prices (run sol_prices txs initState) tx) tx.token_mint
      = (if tx.tx_type = "buy" then
           lotsOf (run sol_prices txs initState) tx.token_mint ++
             [{ amount := 0, price_sol := tx.price_per_token,
                price_usd := tx.price_per_token * ((sol_prices tx.signature).getD 200),
                timestamp := tx.block_time }]
         else lotsOf (run sol_prices txs initState) tx.token_mint)
    ∧ balOf (step sol_prices (run sol_prices txs initState) tx) tx.token_mint
        = balOf (run sol_prices txs initState) tx.token_mint
    ∧ costOf (step sol_prices (run sol_prices txs initState) tx) tx.token_mint
        = costOf (run sol_prices txs initState) tx.token_mint
    ∧ boughtOf (step sol_prices (run sol_prices txs initState) tx) tx.token_mint
        = boughtOf (run sol_prices txs initState) tx.token_mint
    ∧ soldOf (step sol_prices (run sol_prices txs initState) tx) tx.token_mint
        = soldOf (run sol_prices txs initState) tx.token_mint
    ∧ buySolOf (step sol_prices (run sol_prices txs initState) tx) tx.token_mint
        = buySolOf (run sol_prices txs initState) tx.token_mint
    ∧ sellSolOf (step sol_prices (run sol_prices txs initState) tx) tx.token_mint
        = sellSolOf (run sol_prices txs initState) tx.token_mint
    ∧ realizedOf (step sol_prices (run sol_prices txs initState) tx) tx.token_mint
        = realizedOf (run sol_prices txs initState) tx.token_mint
    ∧ realizedUsdOf (step sol_prices (run sol_prices txs initState) tx) tx.token_mint
        = realizedUsdOf (run sol_prices txs initState) tx.token_mint := by
  have hcost := run_costInv sol_prices txs initState initState_costInv tx.token_mint
  by_cases hb : tx.tx_type = "buy"
  · obtain ⟨hl, hbal, hc, hbo, hbs, hso, hss, hr, hru, -⟩ :=
      step_buy sol_prices (run sol_prices txs initState) tx hb
    rw [if_pos hb]
    refine ⟨?_, ?_, ?_, ?_, hso, ?_, hss, hr, hru⟩
    · rw [hl, h0]
    · rw [hbal, h0, add_zero]
    · rw [hc, h0, zero_mul, add_zero]
    · rw [hbo, h0, add_zero]
    · rw [hbs, h0, zero_mul, add_zero]
  · rw [if_neg hb]
    by_cases hs : tx.tx_type = "sell"
    · obtain ⟨hl, hbal, hc, hbo, hbs, hso, hss, hr, hru, -⟩ :=
        step_sell sol_prices (run sol_prices txs initState) tx hs
      have hz : consumeLots tx.amount_token
          (lotsOf (run sol_prices txs initState) tx.token_mint)
          = (0, lotsOf (run sol_prices txs initState) tx.token_mint) := by
        rw [h0]
        exact consumeLots_nonpos le_rfl _
      refine ⟨?_, ?_, ?_, hbo, ?_, hbs, ?_, ?_, ?_⟩
      · rw [hl, hz]
      · rw [hbal, h0, sub_zero]
      · rw [hc, hz]
        exact hcost.symm
      · rw [hso, h0, add_zero]
      · rw [hss, h0, zero_mul, add_zero]
      · rw [hr, hz, h0]
        ring
      · rw [hru, hz, h0]
        ring
    · obtain ⟨hl, hbal, hc, hbo, hbs, hso, hss, hr, hru, -⟩ :=
        step_noop sol_prices (run sol_prices txs initState) tx hb hs
      exact ⟨hl, hbal, hc, hbo, hso, hbs, hss, hr, hru⟩

/-- Witness for C9's amended theorem: a zero-amount disposal applied to the
empty state. -/
theorem zero_amount_effects_witness :
    lotsOf (step noPrices (run noPrices [] initState) ⟨"M", "sell", 0, 5, some 1, "x"⟩) "M"
      = (if ("sell" : String) = "buy" then
           lotsOf (run noPrices [] initState) "M" ++
             [{ amount := 0, price_sol := 5,
                price_usd := 5 * ((noPrices "x").getD 200), timestamp := some 1 }]
         else lotsOf (run noPrices [] initState) "M")
    ∧ balOf (step noPrices (run noPrices [] initState) ⟨"M", "sell", 0, 5, some 1, "x"⟩) "M"
        = balOf (run noPrices [] initState) "M"
    ∧ costOf (step noPrices (run noPrices [] initState) ⟨"M", "sell", 0, 5, some 1, "x"⟩) "M"
        = costOf (run noPrices [] initState) "M"
    ∧ boughtOf (step noPrices (run noPrices [] initState) ⟨"M", "sell", 0, 5, some 1, "x"⟩) "M"
        = boughtOf (run noPrices [] initState) "M"
    ∧ soldOf (step noPrices (run noPrices [] initState) ⟨"M", "sell", 0, 5, some 1, "x"⟩) "M"
        = soldOf (run noPrices [] initState) "M"
    ∧ buySolOf (step noPrices (run noPrices [] initState) ⟨"M", "sell", 0, 5, some 1, "x"⟩) "M"
        = buySolOf (run noPrices [] initState) "M"
    ∧ sellSolOf (step noPrices (run noPrices [] initState) ⟨"M", "sell", 0, 5, some 1, "x"⟩) "M"
        = sellSolOf (run noPrices [] initState) "M"
    ∧ realizedOf (step noPrices (run noPrices [] initState) ⟨"M", "sell", 0, 5, some 1, "x"⟩) "M"
        = realizedOf (run noPrices [] initState) "M"
    ∧ realizedUsdOf (step noPrices (run noPrices [] initState)
        ⟨"M", "sell", 0, 5, some 1, "x"⟩) "M"
        = realizedUsdOf (run noPrices [] initState) "M" :=
  zero_amount_effects noPrices [] ⟨"M", "sell", 0, 5, some 1, "x"⟩ rfl

/-- C9 counterexample: a zero-amount `"buy"` at price 0.02 appends a
zero-amount lot, so the lot queue — part of the position the claim says is
left unchanged — does change. -/
theorem zero_buy_appends_empty_lot :
    lotsOf (run noPrices [⟨"M", "buy", 0, 1/50, some 1, "z"⟩] initState) "M"
      = [{ amount := 0, price_sol := 1/50, price_usd := 4, timestamp := some 1 }]
    ∧ lotsOf (run noPrices [⟨"M", "buy", 0, 1/50, some 1, "z"⟩] initState) "M"
        ≠ lotsOf initState "M" := by
  norm_num [run_cons, run_nil, step, initState, initHolding, lookupA, updateA,
    lotsOf, holdingOf, noPrices]

/-- C10: a transaction whose `tx_type` is neither `"buy"` nor `"sell"`
leaves its token's lot queue, balance, cost and buy/sell totals and realized
P&L unchanged; only `trade_count` is incremented, `last_trade` is set to the
transaction's block time, and `first_trade` is set only when the token had
no holding entry yet. -/
theorem non_trade_frame (sol_prices : String → Option ℚ) (s : LedgerState)
    (tx : PnlTx) (hb : tx.tx_type ≠ "buy") (hs : tx.tx_type ≠ "sell") :
    lotsOf (step sol_prices s tx) tx.token_mint = lotsOf s tx.token_mint
    ∧ balOf (step sol_prices s tx) tx.token_mint = balOf s tx.token_mint
    ∧ costOf (step sol_prices s tx) tx.token_mint = costOf s tx.token_mint
    ∧ boughtOf (step sol_prices s tx) tx.token_mint = boughtOf s tx.token_mint
    ∧ soldOf (step sol_prices s tx) tx.token_mint = soldOf s tx.token_mint
    ∧ buySolOf (step sol_prices s tx) tx.token_mint = buySolOf s tx.token_mint
    ∧ sellSolOf (step sol_prices s tx) tx.token_mint = sellSolOf s tx.token_mint
    ∧ realizedOf (step sol_prices s tx) tx.token_mint = realizedOf s tx.token_mint
    ∧ realizedUsdOf (step sol_prices s tx) tx.token_mint = realizedUsdOf s tx.token_mint
    ∧ tradeCountOf (step sol_prices s tx) tx.token_mint = tradeCountOf s tx.token_mint + 1
    ∧ lastOf (step sol_prices s tx) tx.token_mint = tx.block_time
    ∧ firstOf (step sol_prices s tx) tx.token_mint
        = (if hasHolding s tx.token_mint then firstOf s tx.token_mint
           else tx.block_time) := by
  obtain ⟨hl, hbal, hc, hbo, hbs, hso, hss, hr, hru, htc, hlast, hfirst⟩ :=
    step_noop sol_prices s tx hb hs
  exact ⟨hl, hbal, hc, hbo, hso, hbs, hss, hr, hru, htc, hlast, hfirst⟩

/-- Witness for C10: a `transfer_in` applied to the empty state. -/
theorem non_trade_frame_witness :
    lotsOf (step noPrices initState ⟨"M", "transfer_in", 7, 2, some 3, "w"⟩) "M"
      = lotsOf initState "M"
    ∧ balOf (step noPrices initState ⟨"M", "transfer_in", 7, 2, some 3, "w"⟩) "M"
        = balOf initState "M"
    ∧ costOf (step noPrices initState ⟨"M", "transfer_in", 7, 2, some 3, "w"⟩) "M"
        = costOf initState "M"
    ∧ boughtOf (step noPrices initState ⟨"M", "transfer_in", 7, 2, some 3, "w"⟩) "M"
        = boughtOf initState "M"
    ∧ soldOf (step noPrices initState ⟨"M", "transfer_in", 7, 2, some 3, "w"⟩) "M"
        = soldOf initState "M"
    ∧ buySolOf (step noPrices initState ⟨"M", "transfer_in", 7, 2, some 3, "w"⟩) "M"
        = buySolOf initState "M"
    ∧ sellSolOf (step noPrices initState ⟨"M", "transfer_in", 7, 2, some 3, "w"⟩) "M"
        = sellSolOf initState "M"
    ∧ realizedOf (step noPrices initState ⟨"M", "transfer_in", 7, 2, some 3, "w"⟩) "M"
        = realizedOf initState "M"
    ∧ realizedUsdOf (step noPrices initState ⟨"M", "transfer_in", 7, 2, some 3, "w"⟩) "M"
        = realizedUsdOf initState "M"
    ∧ tradeCountOf (step noPrices initState ⟨"M", "transfer_in", 7, 2, some 3, "w"⟩) "M"
        = tradeCountOf initState "M" + 1
    ∧ lastOf (step noPrices initState ⟨"M", "transfer_in", 7, 2, some 3, "w"⟩) "M" = some 3
    ∧ firstOf (step noPrices initState ⟨"M", "transfer_in", 7, 2, some 3, "w"⟩) "M"
        = (if hasHolding initState "M" then firstOf initState "M" else some 3) :=
  non_trade_frame noPrices initState ⟨"M", "transfer_in", 7, 2, some 3, "w"⟩
    (by decide) (by decide)

/-! ## Sign lemmas for the owner's running SOL change -/

theorem tokenLoopStep_sol_nonneg (w cat : String) (s : TokenLoopState) (t : TokenTransfer)
    (ht : t.mint = WSOL_MINT → t.fromUser = w → (t.toUser = w ∨ t.tokenAmount ≤ 0))
    (h : 0 ≤ s.sol_change) : 0 ≤ (tokenLoopStep w cat s t).sol_change := by
  unfold tokenLoopStep
  by_cases h1 : t.tokenAmount ≤ 0
  · simpa [h1] using h
  · by_cases h2 : t.mint = WSOL_MINT
    · by_cases h3 : t.toUser = w
      · simp only [if_neg h1, if_pos h2, if_pos h3]
        push_neg at h1
        show 0 ≤ s.sol_change + t.tokenAmount
        linarith
      · by_cases h4 : t.fromUser = w
        · rcases ht h2 h4 with hto | hamt
          · exact absurd hto h3
          · exact absurd hamt h1
        · simpa [if_neg h1, if_pos h2, if_neg h3, if_neg h4] using h
    · simp only [if_neg h1, if_neg h2]
      by_cases h5 : t.toUser = w
      · simpa [if_pos h5] using h
      · by_cases h6 : t.fromUser = w
        · simpa [if_neg h5, if_pos h6] using h
        · simpa [if_neg h5, if_neg h6] using h

theorem tokenLoop_sol_nonneg (w cat : String) (ts : List TokenTransfer)
    (hts : ∀ t ∈ ts, t.mint = WSOL_MINT → t.fromUser = w →
      (t.toUser = w ∨ t.tokenAmount ≤ 0)) :
    ∀ (s : TokenLoopState), 0 ≤ s.sol_change →
      0 ≤ (ts.foldl (tokenLoopStep w cat) s).sol_change := by
  induction ts with
  | nil => intro s h; simpa using h
  | cons t rest ih =>
    intro s h
    simp only [List.foldl_cons]
    exact ih (fun u hu => hts u (List.mem_cons_of_mem t hu)) _
      (tokenLoopStep_sol_nonneg w cat s t (hts t (List.mem_cons_self t rest)) h)

theorem tokenLoopStep_sol_nonpos (w cat : String) (s : TokenLoopState) (t : TokenTransfer)
    (ht : t.mint = WSOL_MINT → t.toUser = w → t.tokenAmount ≤ 0)
    (h : s.sol_change ≤ 0) : (tokenLoopStep w cat s t).sol_change ≤ 0 := by
  unfold tokenLoopStep
  by_cases h1 : t.tokenAmount ≤ 0
  · simpa [h1] using h
  · by_cases h2 : t.mint = WSOL_MINT
    · by_cases h3 : t.toUser = w
      · exact absurd (ht h2 h3) h1
      · by_cases h4 : t.fromUser = w
        · simp only [if_neg h1, if_pos h2, if_neg h3, if_pos h4]
          push_neg at h1
          show s.sol_change - t.tokenAmount ≤ 0
          linarith
        · simpa [if_neg h1, if_pos h2, if_neg h3, if_neg h4] using h
    · simp only [if_neg h1, if_neg h2]
      by_cases h5 : t.toUser = w
      · simpa [if_pos h5] using h
      · by_cases h6 : t.fromUser = w
        · simpa [if_neg h5, if_pos h6] using h
        · simpa [if_neg h5, if_neg h6] using h

theorem tokenLoop_sol_nonpos (w cat : String) (ts : List TokenTransfer)
    (hts : ∀ t ∈ ts, t.mint = WSOL_MINT → t.toUser = w → t.tokenAmount ≤ 0) :
    ∀ (s : TokenLoopState), s.sol_change ≤ 0 →
      (ts.foldl (tokenLoopStep w cat) s).sol_change ≤ 0 := by
  induction ts with
  | nil => intro s h; simpa using h
  | cons t rest ih =>
    intro s h
    simp only [List.foldl_cons]
    exact ih (fun u hu => hts u (List.mem_cons_of_mem t hu)) _
      (tokenLoopStep_sol_nonpos w cat s t (hts t (List.mem_cons_self t rest)) h)

theorem nativeLoopStep_nonneg (w : String) (sc : ℚ) (t : NativeTransfer)
    (ht : t.fromUser ≠ w) (h : 0 ≤ sc) : 0 ≤ nativeLoopStep w sc t := by
  simp only [nativeLoopStep]
  by_cases h1 : t.amountLamports / 1000000000 < 1/10000
  · rw [if_pos h1]
    exact h
  · by_cases h2 : t.toUser = w
    · simp only [if_neg h1, if_pos h2]
      push_neg at h1
      linarith
    · simp [if_neg h1, if_neg h2, ht, h]

theorem nativeFold_nonneg (w : String) (ns : List NativeTransfer)
    (hns : ∀ t ∈ ns, t.fromUser ≠ w) :
    ∀ (sc : ℚ), 0 ≤ sc → 0 ≤ ns.foldl (nativeLoopStep w) sc := by
  induction ns with
  | nil => intro sc h; simpa using h
  | cons t rest ih =>
    intro sc h
    simp only [List.foldl_cons]
    exact ih (fun u hu => hns u (List.mem_cons_of_mem t hu)) _
      (nativeLoopStep_nonneg w sc t (hns t (List.mem_cons_self t rest)) h)

theorem nativeLoopStep_nonpos (w : String) (sc : ℚ) (t : NativeTransfer)
    (ht : t.toUser ≠ w) (h : sc ≤ 0) : nativeLoopStep w sc t ≤ 0 := by
  simp only [nativeLoopStep]
  by_cases h1 : t.amountLamports / 1000000000 < 1/10000
  · rw [if_pos h1]
    exact h
  · by_cases h3 : t.fromUser = w
    · simp only [if_neg h1, if_neg ht, if_pos h3]
      push_neg at h1
      linarith
    · simp [if_neg h1, if_neg ht, if_neg h3, h]

theorem nativeFold_nonpos (w : String) (ns : List NativeTransfer)
    (hns : ∀ t ∈ ns, t.toUser ≠ w) :
    ∀ (sc : ℚ), sc ≤ 0 → ns.foldl (nativeLoopStep w) sc ≤ 0 := by
  induction ns with
  | nil => intro sc h; simpa using h
  | cons t rest ih =>
    intro sc h
    simp only [List.foldl_cons]
    exact ih (fun u hu => hns u (List.mem_cons_of_mem t hu)) _
      (nativeLoopStep_nonpos w sc t (hns t (List.mem_cons_self t rest)) h)

theorem maxFromNative_of_none (w : String) (a : ℚ) (ns : List NativeTransfer)
    (hns : ∀ t ∈ ns, t.fromUser ≠ w) : maxFromNative w a ns = a := by
  induction ns with
  | nil => rfl
  | cons t rest ih =>
    unfold maxFromNative at *
    simp only [List.foldl_cons, if_neg (hns t (List.mem_cons_self t rest))]
    exact ih (fun u hu => hns u (List.mem_cons_of_mem t hu))

theorem maxToNative_of_none (w : String) (a : ℚ) (ns : List NativeTransfer)
    (hns : ∀ t ∈ ns, t.toUser ≠ w) : maxToNative w a ns = a := by
  induction ns with
  | nil => rfl
  | cons t rest ih =>
    unfold maxToNative at *
    simp only [List.foldl_cons, if_neg (hns t (List.mem_cons_self t rest))]
    exact ih (fun u hu => hns u (List.mem_cons_of_mem t hu))

/-! ## Claims about the classifier -/

/-- C5 (code bug): on the input dict with `signature` present but `None` and
a non-string `type`, the `try` body of `parse_transaction` raises
`AttributeError` at the `tx_type.upper()` call inside the `is_swap`
expression (helius.py line 102), and the `except` handler's own logging
expression `tx.get('signature', 'unknown')[:8]` (line 364) then raises
`TypeError` by slicing `None` — an exception escapes the handler, so the
function does raise on a malformed input dict instead of returning `None`. -/
theorem parse_transaction_handler_raises :
    swapHintCheck badTx = .error .attributeError
    ∧ exceptLogSliceExpr badTx = .error .typeError :=
  ⟨rfl, rfl⟩

/-- C6: Scenario D — a transaction with no type/source hints, one incoming
token transfer of 500 units to the owner and one outgoing native transfer of
2 SOL (2000000000 lamports) from the owner is classified as a swap/buy with
`amount_token = 500`, `amount_sol = 2` and unit price `0.004 = 1/250`. -/
theorem scenarioD_classification :
    parseTransaction
      { signature := "sigD", timestamp := some 1700000000, txType := "",
        source := "unknown",
        tokenTransfers := [⟨"MINTD", "pool", "OWNER", 500⟩],
        nativeTransfers := [⟨"OWNER", "pool", 2000000000⟩],
        accountData := "[]" } "OWNER"
      = some { signature := "sigD", wallet_address := "OWNER", token_mint := "MINTD",
               tx_type := "buy", category := "swap", amount_token := 500,
               amount_sol := 2, price_per_token := 1/250, dex_name := "unknown",
               transfer_destination := none, block_time := some 1700000000,
               helius_type := "", other_token_mint := none,
               other_token_amount := 0 } := by
  have h1 : isSwapDetected
      { signature := "sigD", timestamp := some 1700000000, txType := "",
        source := "unknown",
        tokenTransfers := [⟨"MINTD", "pool", "OWNER", 500⟩],
        nativeTransfers := [⟨"OWNER", "pool", 2000000000⟩],
        accountData := "[]" } "OWNER" = true := by decide
  norm_num +decide [parseTransaction, isRelevant, categoryOf, transferHint,
    airdropHint, stakingHint, liquidityHint, burnHint, h1, tokenLoop,
    tokenLoopStep, ensureKey, bump, optFalsy, nativeLoopStep, maxByAbs,
    findOther, assignSubtype, maxFromNative, maxToNative, dexName,
    blockTimeOf, WSOL_MINT, strLower, hasSub, hasSubL, headMatch, List.foldl]

/-- In the swap branch for a positive net change (helius.py lines 257-267),
`amount_sol` is the magnitude of a net-negative SOL change, and otherwise
the largest native transfer sent by the owner. -/
theorem assignSubtype_swap_pos (tc sc : ℚ) (w : String) (nts : List NativeTransfer)
    (h : 0 < tc) :
    assignSubtype "swap" tc sc w nts
      = ("buy", tc, if sc < 0 then |sc| else maxFromNative w 0 nts) := by
  simp only [assignSubtype, if_true]
  rw [if_pos h]
  by_cases hs : sc < 0
  · simp only [if_pos hs]
    rw [if_neg (abs_ne_zero.2 (ne_of_lt hs))]
  · simp only [if_neg hs, if_true]

/-- In the swap branch for a non-positive net change (helius.py lines
268-278), `amount_sol` is a net-positive SOL change, and otherwise the
largest native transfer received by the owner. -/
theorem assignSubtype_swap_neg (tc sc : ℚ) (w : String) (nts : List NativeTransfer)
    (h : ¬ 0 < tc) :
    assignSubtype "swap" tc sc w nts
      = ("sell", |tc|, if 0 < sc then sc else maxToNative w 0 nts) := by
  simp only [assignSubtype, if_true]
  rw [if_neg h]
  by_cases hs : 0 < sc
  · simp only [if_pos hs]
    rw [if_neg (ne_of_gt hs)]
  · simp only [if_neg hs, if_true]

/-- C8: every classified swap has subtype buy or sell, a strictly positive
`amount_token` (so `unit_price = amount_sol / amount_token` involves no
division by zero and the `amount_token > 0` guard of helius.py line 336 is
always taken), and `amount_sol` is attributed by subtype: a buy with no
outgoing native flow from the owner, a sell with no incoming native flow to
the owner — in particular any swap with no native counterpart at all — gets
`amount_sol = 0`. -/
theorem swap_pricing_attribution (tx : HeliusTx) (w : String) (p : ParsedTx)
    (h : parseTransaction tx w = some p) (hc : p.category = "swap") :
    (p.tx_type = "buy" ∨ p.tx_type = "sell")
    ∧ 0 < p.amount_token
    ∧ p.price_per_token = p.amount_sol / p.amount_token
    ∧ (noNativeOut tx w → p.tx_type = "buy" → p.amount_sol = 0)
    ∧ (noNativeIn tx w → p.tx_type = "sell" → p.amount_sol = 0) := by
  simp only [parseTransaction] at h
  by_cases hrel : isRelevant tx w
  case neg => simp [hrel] at h
  rw [if_neg (by simp [hrel])] at h
  rcases hmx : maxByAbs (tokenLoop w (categoryOf tx w) tx.tokenTransfers).token_changes
      with _ | tm
  · rw [hmx] at h
    simp at h
  · rw [hmx] at h
    dsimp only at h
    by_cases hguard : |tm.2| < 1/10000
    · rw [if_pos hguard] at h
      simp at h
    · rw [if_neg hguard] at h
      have hp := (Option.some.inj h).symm
      subst hp
      dsimp only at hc ⊢
      rw [hc] at hmx ⊢
      by_cases htc : 0 < tm.2
      · rw [assignSubtype_swap_pos tm.2 _ w tx.nativeTransfers htc]
        dsimp only
        refine ⟨Or.inl rfl, htc, by rw [if_pos htc], ?_, ?_⟩
        · intro hno _
          have hsolTok : 0 ≤ (tokenLoop w "swap" tx.tokenTransfers).sol_change := by
            simpa [tokenLoop] using
              tokenLoop_sol_nonneg w "swap" tx.tokenTransfers hno.2 ⟨[], 0, none⟩
                (by norm_num)
          have hsol : 0 ≤ List.foldl (nativeLoopStep w)
              (tokenLoop w "swap" tx.tokenTransfers).sol_change tx.nativeTransfers :=
            nativeFold_nonneg w tx.nativeTransfers hno.1 _ hsolTok
          rw [if_neg (not_lt.2 hsol)]
          exact maxFromNative_of_none w 0 tx.nativeTransfers hno.1
        · intro _ hsell
          exact absurd hsell (by decide)
      · rw [assignSubtype_swap_neg tm.2 _ w tx.nativeTransfers htc]
        dsimp only
        push_neg at hguard
        have habs : 0 < |tm.2| := by
          have h4 : (0 : ℚ) < 1/10000 := by norm_num
          linarith
        refine ⟨Or.inr rfl, habs, by rw [if_pos habs], ?_, ?_⟩
        · intro _ hbuy
          exact absurd hbuy (by decide)
        · intro hni _
          have hsolTok : (tokenLoop w "swap" tx.tokenTransfers).sol_change ≤ 0 := by
            simpa [tokenLoop] using
              tokenLoop_sol_nonpos w "swap" tx.tokenTransfers hni.2 ⟨[], 0, none⟩
                (by norm_num)
          have hsol : List.foldl (nativeLoopStep w)
              (tokenLoop w "swap" tx.tokenTransfers).sol_change tx.nativeTransfers ≤ 0 :=
            nativeFold_nonpos w tx.nativeTransfers hni.1 _ hsolTok
          rw [if_neg (not_lt.2 hsol)]
          exact maxToNative_of_none w 0 tx.nativeTransfers hni.1

/-- Witness for C8: a hint-classified swap with one incoming token transfer
of 500 and no native flows at all — the classifier yields a buy with
`amount_sol = 0` and unit price `0 = 0 / 500`. -/
theorem swap_pricing_attribution_witness :
    (("buy" : String) = "buy" ∨ ("buy" : String) = "sell")
    ∧ (0 : ℚ) < 500
    ∧ (0 : ℚ) = 0 / 500
    ∧ (noNativeOut
        { signature := "s8", timestamp := some 5, txType := "SWAP",
          source := "unknown", tokenTransfers := [⟨"M8", "pool", "W", 500⟩],
          nativeTransfers := [], accountData := "[]" } "W"
        → ("buy" : String) = "buy" → (0 : ℚ) = 0)
    ∧ (noNativeIn
        { signature := "s8", timestamp := some 5, txType := "SWAP",
          source := "unknown", tokenTransfers := [⟨"M8", "pool", "W", 500⟩],
          nativeTransfers := [], accountData := "[]" } "W"
        → ("buy" : String) = "sell" → (0 : ℚ) = 0) :=
  swap_pricing_attribution
    { signature := "s8", timestamp := some 5, txType := "SWAP",
      source := "unknown", tokenTransfers := [⟨"M8", "pool", "W", 500⟩],
      nativeTransfers := [], accountData := "[]" } "W"
    { signature := "s8", wallet_address := "W", token_mint := "M8",
      tx_type := "buy", category := "swap", amount_token := 500,
      amount_sol := 0, price_per_token := 0, dex_name := "unknown",
      transfer_destination := none, block_time := some 5,
      helius_type := "SWAP", other_token_mint := none, other_token_amount := 0 }
    (by norm_num +decide [parseTransaction, isRelevant, categoryOf,
      transferHint, airdropHint, stakingHint, liquidityHint, burnHint,
      isSwapDetected, swapHint, swapTypeHints, swapSourceHints, hasSub,
      hasSubL, headMatch, strUpper, strLower, walletInTokens, walletInNative,
      involvedNativeTotal, tokenLoop, tokenLoopStep, ensureKey, bump,
      optFalsy, nativeLoopStep, maxByAbs, findOther, assignSubtype,
      maxFromNative, maxToNative, dexName, blockTimeOf, WSOL_MINT,
      List.foldl]) rfl

end SolPnl
